import Mathlib

/-!
Verification of `backupnow/__init__.py` (BackupNow core).

We shallowly embed the settings document as a Python-like value type
(`PyVal`), the execution coordinator's state (`Coord`), and the relevant
methods of `BackupNow` (`start`'s settings phase, `validate_jobs`,
`deserialize_timers`, `start_job`, `run_timer`, `stop_sync`, `on_timer`)
together with the top-level `main` cycle's save placement.
-/

/-- A Python value as stored in the settings document (JSON-like). -/
inductive PyVal where
  | none
  | bool (b : Bool)
  | int (n : Int)
  | str (s : String)
  | list (items : List PyVal)
  | dict (entries : List (String × PyVal))
deriving Repr

/-- Association-list update: replaces the value at the first matching key,
or appends at the end (Python dict insertion-order semantics). -/
def assocSet {α : Type} : List (String × α) → String → α → List (String × α)
  | [], k, v => [(k, v)]
  | (k', v') :: rest, k, v =>
    if k' = k then (k, v) :: rest else (k', v') :: assocSet rest k v

/-- Association-list lookup (Python `dict.get`, first match). -/
def assocGet {α : Type} : List (String × α) → String → Option α
  | [], _ => Option.none
  | (k', v') :: rest, k => if k' = k then some v' else assocGet rest k

/-- Association-list deletion (Python `del d[k]`; dict keys are unique, so
removing every match coincides with removing the single entry). -/
def assocDel {α : Type} (es : List (String × α)) (k : String) : List (String × α) :=
  es.filter (fun p => p.1 ≠ k)

/-- `d.get(k)` on a dict; `None` keys elsewhere. -/
def PyVal.get? : PyVal → String → Option PyVal
  | .dict es, k => assocGet es k
  | _, _ => Option.none

/-- `d.get(k)` returning Python `None` when absent. -/
def PyVal.getD (v : PyVal) (k : String) : PyVal :=
  (v.get? k).getD .none

/-- `k in d` for a dict (false on non-dicts). -/
def PyVal.hasKey (v : PyVal) (k : String) : Bool :=
  match v with
  | .dict es => (assocGet es k).isSome
  | _ => false

/-- `d[k] = x` on a dict (identity on non-dicts, unreachable in the code). -/
def PyVal.set (v : PyVal) (k : String) (x : PyVal) : PyVal :=
  match v with
  | .dict es => .dict (assocSet es k x)
  | _ => v

/-- `del d[k]` on a dict. -/
def PyVal.del (v : PyVal) (k : String) : PyVal :=
  match v with
  | .dict es => .dict (assocDel es k)
  | _ => v

/-- Python truthiness of a value. -/
def truthy : PyVal → Bool
  | .none => false
  | .bool b => b
  | .int n => n != 0
  | .str s => !s.isEmpty
  | .list xs => !xs.isEmpty
  | .dict es => !es.isEmpty

/-- `isinstance(v, dict)`. -/
def PyVal.isDict : PyVal → Bool
  | .dict _ => true
  | _ => false

/-- `type(v).__name__`. -/
def PyVal.typeName : PyVal → String
  | .none => "NoneType"
  | .bool _ => "bool"
  | .int _ => "int"
  | .str _ => "str"
  | .list _ => "list"
  | .dict _ => "dict"

theorem assocGet_assocSet_self {α : Type} (es : List (String × α)) (k : String) (v : α) :
    assocGet (assocSet es k v) k = some v := by
  induction es with
  | nil => simp [assocSet, assocGet]
  | cons hd tl ih =>
    obtain ⟨k', v'⟩ := hd
    by_cases h : k' = k <;> simp [assocSet, assocGet, h, ih]

theorem assocGet_assocSet_ne {α : Type} (es : List (String × α)) (k k' : String) (v : α)
    (h : k' ≠ k) : assocGet (assocSet es k v) k' = assocGet es k' := by
  induction es with
  | nil => simp [assocSet, assocGet, Ne.symm h]
  | cons hd tl ih =>
    obtain ⟨k0, v0⟩ := hd
    by_cases h0 : k0 = k
    · subst h0
      simp [assocSet, assocGet, Ne.symm h]
    · by_cases h1 : k0 = k'
      · subst h1
        simp [assocSet, assocGet, h0]
      · simp [assocSet, assocGet, h0, h1, ih]

theorem assocGet_assocDel_self {α : Type} (es : List (String × α)) (k : String) :
    assocGet (assocDel es k) k = Option.none := by
  induction es with
  | nil => simp [assocDel, assocGet]
  | cons hd tl ih =>
    obtain ⟨k0, v0⟩ := hd
    by_cases h0 : k0 = k
    · subst h0
      simpa [assocDel, assocGet] using ih
    · simpa [assocDel, assocGet, h0] using ih

theorem assocGet_assocDel_ne {α : Type} (es : List (String × α)) (k k' : String)
    (h : k' ≠ k) : assocGet (assocDel es k) k' = assocGet es k' := by
  induction es with
  | nil => simp [assocDel, assocGet]
  | cons hd tl ih =>
    obtain ⟨k0, v0⟩ := hd
    by_cases h0 : k0 = k
    · subst h0
      simpa [assocDel, assocGet, Ne.symm h] using ih
    · by_cases h1 : k0 = k'
      · subst h1
        simp [assocDel, assocGet, h, h0]
      · simpa [assocDel, assocGet, h0, h1] using ih

/-! ## `BackupNow.start`: settings-document phase (lines 240-269)

`start` first loads the settings file (I/O, outside this model), then
mutates the in-memory settings document: writes four comment keys, ensures
a `jobs` mapping, heals a non-dict `taskmanager` by deleting it, re-creates
a missing `taskmanager` as a fresh default, and seeds the default timer
exactly when the `taskmanager` key had to be re-created. -/

/-- `BackupNow.default_backup_name`. -/
def default_backup_name : String := "default_backup"

/-- `BackupNow.default_timerdict` (static): the seeded default timer. -/
def default_timerdict : PyVal :=
  .dict [("time", .str "12:00"),
         ("span", .str "daily"),
         ("commands", .list [.str "*"]),
         ("enabled", .bool true)]

/-- The four comment assignments at the top of `start`. -/
def setComments (s : PyVal) : PyVal :=
  let s := s.set "comment" (.str ("detecting folder *and* file prevents copying"
    ++ " to another mount of the source!!"))
  let s := s.set "comment2" (.str ("Drives configured by BackupGoNow"
    ++ " (not BackupNow) contain"
    ++ " .BackupGoNow-settings.txt"))
  let s := s.set "comment3" (.str ("In this program, all timers should be"
    ++ " \"enabled\", but *jobs* may or may not be."))
  s.set "comment4" (.str ("All times should be in UTC"
    ++ " (time strings and timestamps)."))

/-- `if 'jobs' not in settings: settings['jobs'] = {}`. -/
def ensureJobs (s : PyVal) : PyVal :=
  if s.hasKey "jobs" then s else s.set "jobs" (.dict [])

/-- Healing step: `if 'taskmanager' in settings and not isinstance(..., dict): del`. -/
def healTaskmanager (s : PyVal) : PyVal :=
  if s.hasKey "taskmanager" then
    if (s.getD "taskmanager").isDict then s else s.del "taskmanager"
  else s

/-- `if 'taskmanager' not in settings: add_default = True; settings['taskmanager']
    = {'timers': {}}`; returns the updated document and `add_default`. -/
def ensureTaskmanager (s : PyVal) : PyVal × Bool :=
  if s.hasKey "taskmanager" then (s, false)
  else (s.set "taskmanager" (.dict [("timers", .dict [])]), true)

/-- `BackupNow._add_timerdict`. -/
def addTimerdict (s : PyVal) (key : String) (timerdict : PyVal) : PyVal :=
  let s := if s.hasKey "taskmanager" then s else s.set "taskmanager" (.dict [])
  let tm := s.getD "taskmanager"
  let tm := if tm.hasKey "timers" then tm else tm.set "timers" (.dict [])
  let tm := tm.set "timers" ((tm.getD "timers").set key timerdict)
  s.set "taskmanager" tm

/-- `BackupNow._add_default_timerdict`. -/
def addDefaultTimerdict (s : PyVal) : PyVal :=
  addTimerdict s default_backup_name default_timerdict

/-- The settings-document transformation performed by `start` after loading
(lines 240-269): comments, `jobs` default, `taskmanager` heal and default,
and default-timer seeding when `add_default` was set. -/
def startHealSeed (s : PyVal) : PyVal :=
  let s := ensureJobs (setComments s)
  let p := ensureTaskmanager (healTaskmanager s)
  if p.2 then addDefaultTimerdict p.1 else p.1

/-! ## Job validation (`validate_operation`, `validate_jobs`) -/

/-- `BackupNow.validate_operation`: the `errors` list of its results record
(empty list stands for the record without an `errors` key). -/
def validate_operation (opdict : PyVal) : List String :=
  if opdict.hasKey "source" then [] else ["missing 'source'"]

/-- Items of the `operations` value. The settings-document contract (and
every claim) has `operations` bound to a list; on that domain this is
exactly Python's iteration. -/
def PyVal.items : PyVal → List PyVal
  | .list xs => xs
  | _ => []

/-- Errors one `(name, job)` pair contributes inside `validate_jobs`'s loop:
a blank-name check, then either a missing-`operations` error (which skips
the per-operation checks) or the per-operation errors with 1-based
positions. -/
def jobErrors (name : String) (job : PyVal) : List String :=
  (if name = "" then ["There is a blank job name."] else [])
  ++ (if job.hasKey "operations" then
        ((job.getD "operations").items.enum.map
          (fun p => (validate_operation p.2).map
            (fun e => "operation " ++ toString (p.1 + 1) ++ " " ++ e))).flatten
      else ["Job '" ++ name ++ "' has no operations."])

/-- `BackupNow.validate_jobs` over the entries of the `jobs` mapping: the
accumulated `errors` list of its results record. -/
def validate_jobs (jobs : List (String × PyVal)) : List String :=
  (jobs.map (fun p => jobErrors p.1 p.2)).flatten

/-- `validate_jobs` as called on the settings document:
`jobs = settings.get('jobs'); if not jobs: return results`. -/
def validate_jobs_doc (s : PyVal) : List String :=
  match s.get? "jobs" with
  | some (.dict es) => if truthy (.dict es) then validate_jobs es else []
  | _ => []

/-! ## Timer deserialization -/

/-- Python exception kinds raised by the embedded code. -/
inductive PyErr where
  | valueErr (msg : String)
  | typeErr (msg : String)
  | notImplementedErr (msg : String)
deriving Repr

/-- Results record of timer deserialization: its `errors` list. -/
structure TMResults where
  errors : List String
deriving Repr

/-- Modelled from the spec: `TaskManager.from_dict` (module
`backupnow.taskmanager`, not under `src/`). Per the spec it never raises:
unknown or missing `timers` structure is healed to an empty registry, and a
`span` value without a recognized handler is reported as a validation
error (only `daily` is implemented). -/
def tm_from_dict (tmdict : PyVal) : TMResults :=
  match tmdict.get? "timers" with
  | some (.dict timers) =>
    { errors :=
        (timers.map (fun p =>
          match (p.2).get? "span" with
          | some (.str "daily") => []
          | _ => ["unrecognized span for timer '" ++ p.1 ++ "'"])).flatten }
  | _ => { errors := [] }

/-- `BackupNow.deserialize_timers`: reads `settings.get('taskmanager')`;
if truthy it must be a dict (else `TypeError`) and is handed to
`TaskManager.from_dict`; otherwise returns a fresh results record. -/
def deserialize_timers (s : PyVal) : Except PyErr TMResults :=
  let tmdict := s.getD "taskmanager"
  if truthy tmdict then
    if !tmdict.isDict then
      .error (.typeErr ("Expected dict for taskmanager, got " ++ tmdict.typeName))
    else
      .ok (tm_from_dict tmdict)
  else
    .ok { errors := [] }

/-- The rest of `start` after the settings phase (lines 271-287): validate
jobs when a `jobs` key exists, then deserialize timers when `taskmanager`
exists (raising `NotImplementedError` otherwise). Returns the final
settings document and the accumulated error list. -/
def startRun (s : PyVal) : Except PyErr (PyVal × List String) :=
  let s := startHealSeed s
  let errs := if s.hasKey "jobs" then validate_jobs_doc s else []
  if s.hasKey "taskmanager" then
    match deserialize_timers s with
    | .ok r => .ok (s, errs ++ r.errors)
    | .error e => .error e
  else
    .error (.notImplementedErr "No 'taskmanager' found in settings.")

/-! ## Execution coordinator (`self.threads`, `start_job`, `run_timer`)

Threads are modelled by their liveness flag; the coordinator state keeps
the `self.threads` registry, an append-only log of the names whose thread
objects had `.start()` called (so "no new thread spawned" is `started`
unchanged), and `self.run_level`. -/

/-- A `threading.Thread` handle as the registry sees it. -/
structure ThreadH where
  alive : Bool
deriving Repr

/-- Coordinator state of a `BackupNow` instance. -/
structure Coord where
  threads : List (String × ThreadH)
  started : List String
  runLevel : Nat
deriving Repr

/-- A result record (`event` dict) as built by the coordinator. -/
structure Event where
  error : Option String := Option.none
  status : Option String := Option.none
deriving Repr

/-- The orphan-discarding prologue shared by `start_job` and `run_timer`
(lines 364-370 and 427-433): look up `job_name`; a dead handle is deleted
and treated as absent. Returns the (possibly cleaned) state and the live
handle, if any. -/
def lookupLive (st : Coord) (job_name : String) : Coord × Option ThreadH :=
  match assocGet st.threads job_name with
  | some t =>
    if !t.alive then
      ({ st with threads := assocDel st.threads job_name }, Option.none)
    else (st, some t)
  | Option.none => (st, Option.none)

/-- `BackupNow.start_job` (lines 359-384). `progress_cb` is modelled by its
truthiness; `job` is passed through to the thread target and does not
affect the coordinator. On the fresh path the new thread is registered
under `job_name` and then started (its name is appended to `started`). -/
def start_job (st : Coord) (job_name : String) (job : PyVal) (progress_cb : Bool) :
    Except PyErr (Event × Coord) :=
  if !progress_cb then
    .error (.valueErr "Set the progress_cb to a method.")
  else
    let p := lookupLive st job_name
    match p.2 with
    | some _ =>
      .ok ({ error := some (job_name ++ " is already running."),
             status := some "done" }, p.1)
    | Option.none =>
      let t : ThreadH := { alive := true }
      .ok ({}, { p.1 with threads := assocSet p.1.threads job_name t,
                          started := p.1.started ++ [job_name] })

/-- `BackupNow.run_timer` (lines 424-444): same already-running check for
the reserved name `"timer"`, but the fresh path only constructs the thread
object — it is never registered and `.start()` is never called, so the
method falls through returning `None`. -/
def run_timer (st : Coord) : Option Event × Coord :=
  let job_name := "timer"
  let p := lookupLive st job_name
  match p.2 with
  | some _ =>
    (some { error := some (job_name ++ " is already running."),
            status := some "done" }, p.1)
  | Option.none =>
    (Option.none, p.1)

/-! ## `BackupNow.stop_sync` (lines 330-357)

The loop polls `self.threads`, deleting entries whose handles are dead.
Thread liveness evolves externally; we model it as a function from the
poll index to each name's liveness. The loop may never exit (a thread can
stay alive forever), so it takes fuel and returns `none` when the fuel is
exhausted, together with the list of sleep durations it performed. -/

/-- One `while self.threads:` loop of `stop_sync`: `poll` is the current
poll index, `threads` the registry keys, `wait` the current
`wait_time`. Returns the performed sleep durations on exit. -/
def stopSyncLoop (aliveAt : Nat → String → Bool) :
    Nat → Nat → List String → Nat → Option (List Nat)
  | 0, _, _, _ => Option.none
  | fuel + 1, poll, threads, wait =>
    if threads.isEmpty then some []
    else
      let remaining := threads.filter (fun k => aliveAt poll k)
      if remaining.isEmpty then some []
      else
        let wait2 := wait + 2
        let wait' := if wait2 > 20 then 20 else wait2
        match stopSyncLoop aliveAt fuel (poll + 1) remaining wait' with
        | some ws => some (wait :: ws)
        | Option.none => Option.none

/-- `BackupNow.stop_sync`: sets `run_level = 0`, then waits the registry
out with `wait_time = 1`, `max_wait_time = 20`. On exit the registry is
empty. -/
def stop_sync (aliveAt : Nat → String → Bool) (fuel : Nat) (st : Coord) :
    Option (Coord × List Nat) :=
  let st := { st with runLevel := 0 }
  match stopSyncLoop aliveAt fuel 0 (st.threads.map (fun p => p.1)) 1 with
  | some ws => some ({ st with threads := [] }, ws)
  | Option.none => Option.none

/-! ## `BackupNow.on_timer` (lines 453-465) -/

/-- Atomic steps `on_timer` performs, in order. -/
inductive OnTimerEv where
  | logBusySkip
  | setBusy
  | clearError
  | runTasks
  | clearBusy
deriving DecidableEq, Repr

/-- `BackupNow.on_timer`: given the `busy` flag, the steps performed and
the final `busy` value. -/
def on_timer (busy : Bool) : List OnTimerEv × Bool :=
  if busy then ([.logBusySkip], busy)
  else ([.setBusy, .clearError, .runTasks, .clearBusy], false)

/-! ## `main` (lines 468-582): save placement

Argument parsing, logging and the jobs themselves are external; what
matters here is the control flow around `core.save()`: ready timers are
computed, optionally filtered by `--backup-name`, and `main` returns 0
early — without saving — when none remain; otherwise it runs the watcher
and then calls `core.save()` (= `serialize_timers` + `settings.save`)
exactly once. -/

/-- Observable persistence-relevant steps of one `main` invocation. -/
inductive MainEv where
  | runJobs
  | serializeTimers
  | saveSettings
deriving DecidableEq, Repr

/-- The ready-timer names `main` is left with after the optional
`--backup-name` filter (lines 543-557): filtering only happens when some
timer is ready and a name was passed. -/
def mainTimers (readyTimers : List String) (backupName : Option String) :
    List String :=
  if readyTimers.isEmpty then readyTimers
  else
    match backupName with
    | some bn => readyTimers.filter (fun n => n = bn)
    | Option.none => readyTimers

/-- One `main` cycle, abstracted over the ready-timer names computed by the
task manager and the optional `--backup-name` filter. Returns the step
trace and the exit code: `if not timers: return 0` precedes the run and the
save, so an invocation with no remaining ready timers performs no step. -/
def mainCycle (readyTimers : List String) (backupName : Option String) :
    List MainEv × Nat :=
  if (mainTimers readyTimers backupName).isEmpty then ([], 0)
  else ([.runJobs, .serializeTimers, .saveSettings], 0)

/-! ## Helper lemmas -/

theorem PyVal.get?_set_ne (v : PyVal) (k k' : String) (x : PyVal) (h : k' ≠ k) :
    (v.set k x).get? k' = v.get? k' := by
  cases v <;> simp [PyVal.set, PyVal.get?]
  exact assocGet_assocSet_ne _ _ _ _ h

theorem PyVal.get?_set_self (v : PyVal) (k : String) (x : PyVal)
    (hd : v.isDict = true) : (v.set k x).get? k = some x := by
  cases v <;> simp_all [PyVal.isDict, PyVal.set, PyVal.get?, assocGet_assocSet_self]

theorem PyVal.get?_del_self (v : PyVal) (k : String) :
    (v.del k).get? k = Option.none := by
  cases v <;> simp [PyVal.del, PyVal.get?, assocGet_assocDel_self]

theorem PyVal.hasKey_eq_isSome (v : PyVal) (k : String) :
    v.hasKey k = (v.get? k).isSome := by
  cases v <;> rfl

theorem PyVal.isDict_set (v : PyVal) (k : String) (x : PyVal) :
    (v.set k x).isDict = v.isDict := by
  cases v <;> rfl

theorem setComments_get?_taskmanager (s : PyVal) :
    (setComments s).get? "taskmanager" = s.get? "taskmanager" := by
  unfold setComments
  rw [PyVal.get?_set_ne _ _ _ _ (by decide), PyVal.get?_set_ne _ _ _ _ (by decide),
      PyVal.get?_set_ne _ _ _ _ (by decide), PyVal.get?_set_ne _ _ _ _ (by decide)]

theorem setComments_isDict (s : PyVal) :
    (setComments s).isDict = s.isDict := by
  unfold setComments
  rw [PyVal.isDict_set, PyVal.isDict_set, PyVal.isDict_set, PyVal.isDict_set]

theorem ensureJobs_get?_taskmanager (s : PyVal) :
    (ensureJobs s).get? "taskmanager" = s.get? "taskmanager" := by
  unfold ensureJobs
  split
  · rfl
  · exact PyVal.get?_set_ne _ _ _ _ (by decide)

theorem ensureJobs_isDict (s : PyVal) :
    (ensureJobs s).isDict = s.isDict := by
  unfold ensureJobs
  split
  · rfl
  · exact PyVal.isDict_set _ _ _

theorem stopSyncLoop_succ (aliveAt : Nat → String → Bool)
    (n poll : Nat) (threads : List String) (wait : Nat) :
    stopSyncLoop aliveAt (n + 1) poll threads wait =
      if threads.isEmpty then some []
      else
        if (threads.filter (fun k => aliveAt poll k)).isEmpty then some []
        else
          match stopSyncLoop aliveAt n (poll + 1)
              (threads.filter (fun k => aliveAt poll k))
              (if wait + 2 > 20 then 20 else wait + 2) with
          | some ws => some (wait :: ws)
          | Option.none => Option.none := rfl

theorem stopSyncLoop_none_of_immortal (aliveAt : Nat → String → Bool) (k : String)
    (hk : ∀ p, aliveAt p k = true) :
    ∀ fuel poll threads wait, k ∈ threads →
      stopSyncLoop aliveAt fuel poll threads wait = Option.none := by
  intro fuel
  induction fuel with
  | zero => intro poll threads wait _; rfl
  | succ n ih =>
    intro poll threads wait hmem
    have hne : threads.isEmpty = false := by
      cases threads with
      | nil => cases hmem
      | cons a l => rfl
    have hmem' : k ∈ threads.filter (fun x => aliveAt poll x) := by
      rw [List.mem_filter]
      exact ⟨hmem, hk poll⟩
    have hne' : (threads.filter (fun x => aliveAt poll x)).isEmpty = false := by
      cases hf : threads.filter (fun x => aliveAt poll x) with
      | nil => rw [hf] at hmem'; cases hmem'
      | cons a l => rfl
    rw [stopSyncLoop_succ]
    simp only [hne, hne', Bool.false_eq_true, if_false]
    rw [ih _ _ _ hmem']

theorem stopSyncLoop_sleeps (aliveAt : Nat → String → Bool) :
    ∀ fuel poll threads wait ws, wait ≤ 20 →
      stopSyncLoop aliveAt fuel poll threads wait = some ws →
      ws = (List.range ws.length).map (fun i => min (wait + 2 * i) 20) := by
  intro fuel
  induction fuel with
  | zero => intro poll threads wait ws _ h; cases h
  | succ n ih =>
    intro poll threads wait ws hw h
    rw [stopSyncLoop_succ] at h
    by_cases he : threads.isEmpty
    · rw [if_pos he] at h
      cases h
      rfl
    · rw [if_neg he] at h
      by_cases he' : (threads.filter (fun k => aliveAt poll k)).isEmpty
      · rw [if_pos he'] at h
        cases h
        rfl
      · rw [if_neg he'] at h
        cases hrec : stopSyncLoop aliveAt n (poll + 1)
            (threads.filter (fun k => aliveAt poll k))
            (if wait + 2 > 20 then 20 else wait + 2) with
        | none =>
          rw [hrec] at h
          cases h
        | some ws' =>
          rw [hrec] at h
          cases h
          have hw' : (if wait + 2 > 20 then 20 else wait + 2) ≤ 20 := by
            split <;> omega
          have hws' := ih _ _ _ _ hw' hrec
          rw [List.length_cons, List.range_succ_eq_map, List.map_cons, List.map_map]
          rw [List.cons_eq_cons]
          constructor
          · show wait = min (wait + 2 * 0) 20
            omega
          · conv_lhs => rw [hws']
            apply List.map_congr_left
            intro i _
            simp only [Function.comp_apply]
            split <;> omega

/-! ## Claim theorems -/

/-- C1: if `job_name` maps to a live thread, `start_job` returns the
already-running record with `status` `"done"`, spawns nothing, and leaves
the registry and state unchanged; consequently two back-to-back
`start_job` calls for one name yield exactly one spawned execution and one
already-running result. -/
theorem start_job_already_running (st : Coord) (n : String) (job : PyVal)
    (t : ThreadH) (hl : assocGet st.threads n = some t) (ha : t.alive = true) :
    start_job st n job true =
      .ok ({ error := some (n ++ " is already running."),
             status := some "done" }, st)
    ∧ ∀ st0 : Coord, assocGet st0.threads n = Option.none →
        ∃ st1, start_job st0 n job true = .ok ({}, st1)
          ∧ start_job st1 n job true =
              .ok ({ error := some (n ++ " is already running."),
                     status := some "done" }, st1)
          ∧ st1.started = st0.started ++ [n] := by
  constructor
  · simp [start_job, lookupLive, hl, ha]
  · intro st0 h0
    refine ⟨{ st0 with threads := assocSet st0.threads n (ThreadH.mk true), started := st0.started ++ [n] }, ?_, ?_, rfl⟩
    · simp [start_job, lookupLive, h0]
    · simp [start_job, lookupLive, assocGet_assocSet_self]

/-- C1 witness: one live `"alpha"` thread; the call reports
already-running, and from an empty registry two calls spawn exactly once. -/
theorem start_job_already_running_witness :
    start_job ⟨[("alpha", ⟨true⟩)], [], 1⟩ "alpha" .none true =
      .ok ({ error := some ("alpha" ++ " is already running."),
             status := some "done" }, ⟨[("alpha", ⟨true⟩)], [], 1⟩)
    ∧ ∀ st0 : Coord, assocGet st0.threads "alpha" = Option.none →
        ∃ st1, start_job st0 "alpha" .none true = .ok ({}, st1)
          ∧ start_job st1 "alpha" .none true =
              .ok ({ error := some ("alpha" ++ " is already running."),
                     status := some "done" }, st1)
          ∧ st1.started = st0.started ++ ["alpha"] :=
  start_job_already_running ⟨[("alpha", ⟨true⟩)], [], 1⟩ "alpha" .none
    ⟨true⟩ rfl rfl

/-- C3: with a truthy `progress_cb` and no live entry for `job_name`
(absent, or a stale dead entry which is discarded), `start_job` registers a
fresh live thread under `job_name`, starts it, and returns the empty
record. -/
theorem start_job_fresh_registers (st : Coord) (n : String) (job : PyVal)
    (h : assocGet st.threads n = Option.none
         ∨ ∃ t, assocGet st.threads n = some t ∧ t.alive = false) :
    ∃ st', start_job st n job true = .ok ({}, st')
      ∧ assocGet st'.threads n = some { alive := true }
      ∧ st'.started = st.started ++ [n] := by
  rcases h with h | ⟨t, hl, hd⟩
  · refine ⟨{ st with threads := assocSet st.threads n (ThreadH.mk true), started := st.started ++ [n] }, ?_, ?_, rfl⟩
    · simp [start_job, lookupLive, h]
    · simp [assocGet_assocSet_self]
  · refine ⟨{ st with threads := assocSet (assocDel st.threads n) n (ThreadH.mk true), started := st.started ++ [n] }, ?_, ?_, rfl⟩
    · simp [start_job, lookupLive, hl, hd]
    · simp [assocGet_assocSet_self]

/-- C3 witness: a stale dead `"beta"` entry is discarded and a fresh
thread is registered and started. -/
theorem start_job_fresh_registers_witness :
    ∃ st', start_job ⟨[("beta", ⟨false⟩)], [], 1⟩ "beta" .none true = .ok ({}, st')
      ∧ assocGet st'.threads "beta" = some { alive := true }
      ∧ st'.started = ([] : List String) ++ ["beta"] :=
  start_job_fresh_registers ⟨[("beta", ⟨false⟩)], [], 1⟩ "beta" .none
    (Or.inr ⟨⟨false⟩, rfl, rfl⟩)

/-- C10: with no live `"timer"` entry, `run_timer` returns `None`, leaves
no `"timer"` entry in the registry, and starts no thread (so
`run_timer_sync`, the would-be thread target, is never invoked). -/
theorem run_timer_never_starts (st : Coord)
    (h : assocGet st.threads "timer" = Option.none
         ∨ ∃ t, assocGet st.threads "timer" = some t ∧ t.alive = false) :
    (run_timer st).1 = Option.none
    ∧ assocGet (run_timer st).2.threads "timer" = Option.none
    ∧ (run_timer st).2.started = st.started := by
  rcases h with h | ⟨t, hl, hd⟩
  · refine ⟨?_, ?_, ?_⟩ <;> simp [run_timer, lookupLive, h]
  · refine ⟨?_, ?_, ?_⟩ <;>
      simp [run_timer, lookupLive, hl, hd, assocGet_assocDel_self]

/-- C10 witness: empty registry; `run_timer` registers and starts
nothing. -/
theorem run_timer_never_starts_witness :
    (run_timer ⟨[], [], 1⟩).1 = Option.none
    ∧ assocGet (run_timer ⟨[], [], 1⟩).2.threads "timer" = Option.none
    ∧ (run_timer ⟨[], [], 1⟩).2.started = Coord.started ⟨[], [], 1⟩ :=
  run_timer_never_starts ⟨[], [], 1⟩ (Or.inl rfl)

/-- C9: `on_timer` never overlaps itself: when `busy` it only logs and
returns (no `run_tasks`), leaving `busy` set; when clear it sets `busy`,
runs tasks, and clears `busy` again before returning, in that order. -/
theorem on_timer_busy_guard :
    (OnTimerEv.runTasks ∉ (on_timer true).1
      ∧ (on_timer true).1 = [.logBusySkip] ∧ (on_timer true).2 = true)
    ∧ ((on_timer false).1 = [.setBusy, .clearError, .runTasks, .clearBusy]
      ∧ (on_timer false).1.indexOf .setBusy < (on_timer false).1.indexOf .runTasks
      ∧ (on_timer false).1.indexOf .runTasks < (on_timer false).1.indexOf .clearBusy
      ∧ (on_timer false).2 = false) := by
  refine ⟨⟨?_, rfl, rfl⟩, rfl, ?_, ?_, rfl⟩ <;> decide

theorem PyVal.isDict_del (v : PyVal) (k : String) :
    (v.del k).isDict = v.isDict := by
  cases v <;> rfl

theorem addTimerdict_get? (s' : PyVal) (hd' : s'.isDict = true) (tm : PyVal)
    (hget : s'.get? "taskmanager" = some tm)
    (htimers : tm.hasKey "timers" = true) (key : String) (td : PyVal) :
    (addTimerdict s' key td).get? "taskmanager"
      = some (tm.set "timers" ((tm.getD "timers").set key td)) := by
  have hk : s'.hasKey "taskmanager" = true := by
    rw [PyVal.hasKey_eq_isSome, hget]
    rfl
  have hgd : s'.getD "taskmanager" = tm := by
    rw [PyVal.getD, hget]
    rfl
  simp only [addTimerdict, hk, if_true, hgd, htimers]
  exact PyVal.get?_set_self _ _ _ hd'

theorem ensure_seed_taskmanager (s2 : PyVal) (hd : s2.isDict = true)
    (h : s2.get? "taskmanager" = Option.none) :
    (if (ensureTaskmanager s2).2 then addDefaultTimerdict (ensureTaskmanager s2).1
     else (ensureTaskmanager s2).1).get? "taskmanager"
      = some (.dict [("timers", .dict [(default_backup_name, default_timerdict)])]) := by
  have hk : s2.hasKey "taskmanager" = false := by
    rw [PyVal.hasKey_eq_isSome, h]
    rfl
  have he : ensureTaskmanager s2
      = (s2.set "taskmanager" (.dict [("timers", .dict [])]), true) := by
    simp [ensureTaskmanager, hk]
  rw [he]
  show (addDefaultTimerdict
      (s2.set "taskmanager" (.dict [("timers", .dict [])]))).get? "taskmanager" = _
  have hget : (s2.set "taskmanager" (.dict [("timers", .dict [])])).get? "taskmanager"
      = some (.dict [("timers", .dict [])]) := PyVal.get?_set_self s2 _ _ hd
  have hd' : (s2.set "taskmanager" (.dict [("timers", .dict [])])).isDict = true := by
    rw [PyVal.isDict_set]
    exact hd
  rw [addDefaultTimerdict, addTimerdict_get? _ hd' _ hget rfl]
  rfl

theorem startHealSeed_taskmanager (es : List (String × PyVal))
    (h : assocGet es "taskmanager" = Option.none
         ∨ ∃ v, assocGet es "taskmanager" = some v ∧ v.isDict = false) :
    (startHealSeed (.dict es)).get? "taskmanager"
      = some (.dict [("timers", .dict [(default_backup_name, default_timerdict)])]) := by
  have hd1 : (ensureJobs (setComments (.dict es))).isDict = true := by
    rw [ensureJobs_isDict, setComments_isDict]
    rfl
  have h1 : (ensureJobs (setComments (.dict es))).get? "taskmanager"
      = assocGet es "taskmanager" := by
    rw [ensureJobs_get?_taskmanager, setComments_get?_taskmanager]
    rfl
  have hheal : (healTaskmanager (ensureJobs (setComments (.dict es)))).get? "taskmanager"
        = Option.none
      ∧ (healTaskmanager (ensureJobs (setComments (.dict es)))).isDict = true := by
    rcases h with h | ⟨v, hv, hnd⟩
    · have hk : (ensureJobs (setComments (.dict es))).hasKey "taskmanager" = false := by
        rw [PyVal.hasKey_eq_isSome, h1, h]
        rfl
      have he : healTaskmanager (ensureJobs (setComments (.dict es)))
          = ensureJobs (setComments (.dict es)) := by
        simp [healTaskmanager, hk]
      rw [he]
      exact ⟨by rw [h1, h], hd1⟩
    · have hk : (ensureJobs (setComments (.dict es))).hasKey "taskmanager" = true := by
        rw [PyVal.hasKey_eq_isSome, h1, hv]
        rfl
      have hgd : (ensureJobs (setComments (.dict es))).getD "taskmanager" = v := by
        rw [PyVal.getD, h1, hv]
        rfl
      have he : healTaskmanager (ensureJobs (setComments (.dict es)))
          = (ensureJobs (setComments (.dict es))).del "taskmanager" := by
        simp [healTaskmanager, hk, hgd, hnd]
      rw [he]
      refine ⟨PyVal.get?_del_self _ _, ?_⟩
      rw [PyVal.isDict_del]
      exact hd1
  simp only [startHealSeed]
  exact ensure_seed_taskmanager _ hheal.2 hheal.1

/-- C2: `stop_sync` first sets the run level to 0; whenever it returns the
execution registry is empty and the sleeps it performed follow the
backoff 1, 3, 5, ... capped at 20 (the i-th sleep is `min (1 + 2i) 20`);
and it never returns while a registered execution is still alive (a thread
alive at every poll makes `stop_sync` diverge for every fuel). -/
theorem stop_sync_spec :
    (∀ (aliveAt : Nat → String → Bool) (fuel : Nat) (st r : Coord) (ws : List Nat),
      stop_sync aliveAt fuel st = some (r, ws) →
        r.runLevel = 0 ∧ r.threads = []
        ∧ ws = (List.range ws.length).map (fun i => min (1 + 2 * i) 20))
    ∧ (∀ (aliveAt : Nat → String → Bool) (st : Coord) (k : String),
        k ∈ st.threads.map (fun p => p.1) → (∀ p, aliveAt p k = true) →
        ∀ fuel, stop_sync aliveAt fuel st = Option.none) := by
  constructor
  · intro aliveAt fuel st r ws h
    obtain ⟨th, sd, rl⟩ := st
    simp only [stop_sync] at h
    cases hrec : stopSyncLoop aliveAt fuel 0 (th.map (fun p => p.1)) 1 with
    | none =>
      rw [hrec] at h
      cases h
    | some ws0 =>
      rw [hrec] at h
      cases h
      exact ⟨rfl, rfl, stopSyncLoop_sleeps aliveAt fuel 0 _ 1 _ (by omega) hrec⟩
  · intro aliveAt st k hk hal fuel
    obtain ⟨th, sd, rl⟩ := st
    simp only [stop_sync]
    rw [stopSyncLoop_none_of_immortal aliveAt k hal fuel 0 _ 1 hk]

/-- C2 witness: from one thread dead at the first poll, `stop_sync`
returns with run level 0, an empty registry and no sleeps; with a thread
that never dies it diverges. -/
theorem stop_sync_spec_witness :
    (Coord.runLevel { threads := [], started := [], runLevel := 0 } = 0
      ∧ Coord.threads { threads := [], started := [], runLevel := 0 } = []
      ∧ ([] : List Nat)
          = (List.range (List.length ([] : List Nat))).map (fun i => min (1 + 2 * i) 20))
    ∧ stop_sync (fun _ _ => true) 3
        { threads := [("a", ThreadH.mk true)], started := [], runLevel := 1 }
        = Option.none := by
  constructor
  · exact stop_sync_spec.1 (fun _ _ => false) 1
      { threads := [("a", ThreadH.mk true)], started := [], runLevel := 1 } _ _ rfl
  · exact stop_sync_spec.2 (fun _ _ => true)
      { threads := [("a", ThreadH.mk true)], started := [], runLevel := 1 } "a"
      (by simp) (fun _ => rfl) 3

/-- C4 counterexample: a persisted document whose `taskmanager` is a
mapping with an empty `timers` mapping has no persisted timer, yet after
`start`'s settings phase no `default_backup` timer has been seeded (the
code seeds only when the `taskmanager` key itself was missing or healed
away). -/
theorem start_seed_counterexample :
    ((PyVal.dict [("taskmanager", .dict [("timers", .dict [])])]).getD
        "taskmanager").getD "timers" = .dict []
    ∧ (((startHealSeed
          (.dict [("taskmanager", .dict [("timers", .dict [])])])).getD
        "taskmanager").getD "timers").get? default_backup_name = Option.none :=
  ⟨rfl, rfl⟩

/-- C4 (amended): on every start invocation where the settings document
has no `taskmanager` mapping (the key is absent, or present with a
non-mapping value and thus healed away), the settings phase seeds the
default timer: afterwards `taskmanager.timers` maps `default_backup` to
`{time: "12:00", span: "daily", commands: ["*"], enabled: True}`. -/
theorem startHealSeed_seeds_default (es : List (String × PyVal))
    (h : assocGet es "taskmanager" = Option.none
         ∨ ∃ v, assocGet es "taskmanager" = some v ∧ v.isDict = false) :
    (((startHealSeed (.dict es)).getD "taskmanager").getD "timers").get?
        default_backup_name = some default_timerdict := by
  have htm : (startHealSeed (.dict es)).getD "taskmanager"
      = .dict [("timers", .dict [(default_backup_name, default_timerdict)])] := by
    rw [PyVal.getD, startHealSeed_taskmanager es h]
    rfl
  rw [htm]
  rfl

/-- C4 witness: an empty settings document gets the default timer. -/
theorem startHealSeed_seeds_default_witness :
    (((startHealSeed (.dict [])).getD "taskmanager").getD "timers").get?
        default_backup_name = some default_timerdict :=
  startHealSeed_seeds_default [] (Or.inl rfl)

/-- C7: when the persisted `taskmanager` value is present but not a
mapping, `start` does not fail: the heal-and-ensure step resets
`taskmanager` to the fresh default structure `{'timers': {}}` (and flags
the default timer for seeding), and the remainder of `start` completes
normally, returning a results record. -/
theorem start_heals_nondict_taskmanager (es : List (String × PyVal)) (v : PyVal)
    (hv : assocGet es "taskmanager" = some v) (hnd : v.isDict = false) :
    ((ensureTaskmanager (healTaskmanager
        (ensureJobs (setComments (.dict es))))).1).getD "taskmanager"
        = .dict [("timers", .dict [])]
    ∧ (ensureTaskmanager (healTaskmanager
        (ensureJobs (setComments (.dict es))))).2 = true
    ∧ ∃ r, startRun (.dict es) = .ok r := by
  have hd1 : (ensureJobs (setComments (.dict es))).isDict = true := by
    rw [ensureJobs_isDict, setComments_isDict]
    rfl
  have h1 : (ensureJobs (setComments (.dict es))).get? "taskmanager"
      = assocGet es "taskmanager" := by
    rw [ensureJobs_get?_taskmanager, setComments_get?_taskmanager]
    rfl
  have hk : (ensureJobs (setComments (.dict es))).hasKey "taskmanager" = true := by
    rw [PyVal.hasKey_eq_isSome, h1, hv]
    rfl
  have hgd : (ensureJobs (setComments (.dict es))).getD "taskmanager" = v := by
    rw [PyVal.getD, h1, hv]
    rfl
  have he : healTaskmanager (ensureJobs (setComments (.dict es)))
      = (ensureJobs (setComments (.dict es))).del "taskmanager" := by
    simp [healTaskmanager, hk, hgd, hnd]
  have hdel : ((ensureJobs (setComments (.dict es))).del "taskmanager").get?
      "taskmanager" = Option.none := PyVal.get?_del_self _ _
  have hkd : ((ensureJobs (setComments (.dict es))).del "taskmanager").hasKey
      "taskmanager" = false := by
    rw [PyVal.hasKey_eq_isSome, hdel]
    rfl
  have hdd : ((ensureJobs (setComments (.dict es))).del "taskmanager").isDict
      = true := by
    rw [PyVal.isDict_del]
    exact hd1
  have hens : ensureTaskmanager ((ensureJobs (setComments (.dict es))).del
        "taskmanager")
      = (((ensureJobs (setComments (.dict es))).del "taskmanager").set
          "taskmanager" (.dict [("timers", .dict [])]), true) := by
    simp [ensureTaskmanager, hkd]
  refine ⟨?_, ?_, ?_⟩
  · rw [he, hens]
    show (((ensureJobs (setComments (.dict es))).del "taskmanager").set
        "taskmanager" (.dict [("timers", .dict [])])).getD "taskmanager" = _
    rw [PyVal.getD, PyVal.get?_set_self _ _ _ hdd]
    rfl
  · rw [he, hens]
  · have hget := startHealSeed_taskmanager es (Or.inr ⟨v, hv, hnd⟩)
    have hk2 : (startHealSeed (.dict es)).hasKey "taskmanager" = true := by
      rw [PyVal.hasKey_eq_isSome, hget]
      rfl
    have hdes : deserialize_timers (startHealSeed (.dict es))
        = .ok (tm_from_dict (.dict [("timers",
            .dict [(default_backup_name, default_timerdict)])])) := by
      simp only [deserialize_timers, PyVal.getD, hget, Option.getD_some]
      rfl
    simp only [startRun, hk2, if_true, hdes]
    exact ⟨_, rfl⟩

/-- C7 witness: `taskmanager = "bad"` (a string) is healed and start
completes. -/
theorem start_heals_nondict_taskmanager_witness :
    ((ensureTaskmanager (healTaskmanager (ensureJobs (setComments
        (.dict [("taskmanager", .str "bad")]))))).1).getD "taskmanager"
        = .dict [("timers", .dict [])]
    ∧ (ensureTaskmanager (healTaskmanager (ensureJobs (setComments
        (.dict [("taskmanager", .str "bad")]))))).2 = true
    ∧ ∃ r, startRun (.dict [("taskmanager", .str "bad")]) = .ok r :=
  start_heals_nondict_taskmanager [("taskmanager", .str "bad")] (.str "bad")
    rfl rfl

/-- C8: `deserialize_timers` raises a type error only when the settings
document's `taskmanager` value is present and not a mapping; whenever
`taskmanager` is absent or is a mapping, it returns a results record
without raising. -/
theorem deserialize_timers_raise_condition :
    (∀ (s : PyVal) (e : PyErr), deserialize_timers s = .error e →
        ∃ v, s.get? "taskmanager" = some v ∧ v.isDict = false)
    ∧ (∀ s : PyVal, (s.get? "taskmanager" = Option.none
          ∨ ∃ ds, s.get? "taskmanager" = some (.dict ds)) →
        ∃ r, deserialize_timers s = .ok r) := by
  constructor
  · intro s e h
    by_cases ht : truthy (s.getD "taskmanager") = true
    · by_cases hd : (s.getD "taskmanager").isDict = true
      · simp [deserialize_timers, ht, hd] at h
      · cases hg : s.get? "taskmanager" with
        | none =>
          rw [PyVal.getD, hg] at ht
          simp [truthy] at ht
        | some v =>
          have hgd : s.getD "taskmanager" = v := by
            rw [PyVal.getD, hg]
            rfl
          rw [hgd] at hd
          exact ⟨v, rfl, by simpa using hd⟩
    · simp [deserialize_timers, ht] at h
  · intro s h
    rcases h with h | ⟨ds, h⟩
    · have hgd : s.getD "taskmanager" = .none := by
        rw [PyVal.getD, h]
        rfl
      exact ⟨{ errors := [] }, by simp [deserialize_timers, hgd, truthy]⟩
    · have hgd : s.getD "taskmanager" = .dict ds := by
        rw [PyVal.getD, h]
        rfl
      by_cases he : ds.isEmpty = true
      · exact ⟨{ errors := [] }, by simp [deserialize_timers, hgd, truthy, he]⟩
      · exact ⟨tm_from_dict (.dict ds),
          by simp [deserialize_timers, hgd, truthy, he, PyVal.isDict]⟩

/-- C8 witness: a string-valued `taskmanager` raises and is indeed present
and non-mapping; an empty document deserializes without raising. -/
theorem deserialize_timers_raise_condition_witness :
    (∃ v, (PyVal.dict [("taskmanager", .str "7")]).get? "taskmanager" = some v
        ∧ v.isDict = false)
    ∧ ∃ r, deserialize_timers (PyVal.dict []) = .ok r := by
  constructor
  · exact deserialize_timers_raise_condition.1 (.dict [("taskmanager", .str "7")])
      (.typeErr ("Expected dict for taskmanager, got " ++ "str")) rfl
  · exact deserialize_timers_raise_condition.2 (.dict []) (Or.inl rfl)

/-- C5 counterexample: an invocation of `main` whose ready-timer set is
empty hits `if not timers: return 0` and returns without persisting, so it
does not persist exactly once. -/
theorem mainCycle_save_counterexample :
    ¬ (List.count MainEv.saveSettings (mainCycle [] Option.none).1 = 1) := by
  decide

/-- C5 (amended): an invocation of `main` whose ready-timer set — after
the optional `--backup-name` filter — is nonempty runs the watcher and
then persists exactly once (serialize the timer registry, then save the
settings document, after execution); an invocation left with no ready
timers returns 0 without persisting. -/
theorem mainCycle_save_placement (ready : List String) (bn : Option String) :
    (mainTimers ready bn ≠ [] →
      (mainCycle ready bn).1
          = [MainEv.runJobs, MainEv.serializeTimers, MainEv.saveSettings]
      ∧ List.count MainEv.saveSettings (mainCycle ready bn).1 = 1)
    ∧ (mainTimers ready bn = [] →
      (mainCycle ready bn).1 = [] ∧ (mainCycle ready bn).2 = 0) := by
  constructor
  · intro h
    have ht : (mainCycle ready bn).1
        = [MainEv.runJobs, MainEv.serializeTimers, MainEv.saveSettings] := by
      cases hm : mainTimers ready bn with
      | nil => exact absurd hm h
      | cons a l => simp [mainCycle, hm]
    refine ⟨ht, ?_⟩
    rw [ht]
    decide
  · intro h
    constructor <;> simp [mainCycle, h]

/-- C5 witness: one ready timer leads to exactly one save after the run. -/
theorem mainCycle_save_placement_witness :
    (mainCycle ["default_backup"] Option.none).1
        = [MainEv.runJobs, MainEv.serializeTimers, MainEv.saveSettings]
    ∧ List.count MainEv.saveSettings
        (mainCycle ["default_backup"] Option.none).1 = 1 :=
  (mainCycle_save_placement ["default_backup"] Option.none).1 (by decide)

theorem mem_validate_jobs_of_mem {jobs : List (String × PyVal)}
    {name : String} {job : PyVal} {e : String}
    (hj : (name, job) ∈ jobs) (he : e ∈ jobErrors name job) :
    e ∈ validate_jobs jobs := by
  unfold validate_jobs
  rw [List.mem_flatten]
  exact ⟨jobErrors name job, List.mem_map.mpr ⟨(name, job), hj, rfl⟩, he⟩

/-- C6: `validate_jobs` (total — it never raises on documents of the
settings shape) accumulates: a blank job name contributes an error; a job
without an `operations` key contributes an error and its operation checks
are skipped (that pair contributes nothing else); an operation without
`source` contributes an error naming its 1-based position; and the single
job with `operations = [{}]` yields exactly the one error for operation 1. -/
theorem validate_jobs_spec :
    (∀ (jobs : List (String × PyVal)) (job : PyVal), ("", job) ∈ jobs →
        "There is a blank job name." ∈ validate_jobs jobs)
    ∧ (∀ (jobs : List (String × PyVal)) (name : String) (job : PyVal),
        (name, job) ∈ jobs → job.hasKey "operations" = false →
        ("Job '" ++ name ++ "' has no operations.") ∈ validate_jobs jobs
        ∧ jobErrors name job
            = (if name = "" then ["There is a blank job name."] else [])
              ++ ["Job '" ++ name ++ "' has no operations."])
    ∧ (∀ (jobs : List (String × PyVal)) (name : String) (job : PyVal)
          (i : Nat) (op : PyVal),
        (name, job) ∈ jobs → job.hasKey "operations" = true →
        (job.getD "operations").items[i]? = some op →
        op.hasKey "source" = false →
        ("operation " ++ toString (i + 1) ++ " missing 'source'")
          ∈ validate_jobs jobs)
    ∧ validate_jobs [("job1", .dict [("operations", .list [.dict []])])]
        = ["operation 1 missing 'source'"] := by
  refine ⟨?_, ?_, ?_, ?_⟩
  · intro jobs job hj
    refine mem_validate_jobs_of_mem hj ?_
    simp [jobErrors]
  · intro jobs name job hj hk
    have he : jobErrors name job
        = (if name = "" then ["There is a blank job name."] else [])
          ++ ["Job '" ++ name ++ "' has no operations."] := by
      simp [jobErrors, hk]
    refine ⟨mem_validate_jobs_of_mem hj ?_, he⟩
    rw [he]
    simp
  · intro jobs name job i op hj hk hop hs
    refine mem_validate_jobs_of_mem hj ?_
    have hmem : (i, op) ∈ (job.getD "operations").items.enum :=
      List.mk_mem_enum_iff_getElem?.mpr hop
    simp only [jobErrors, hk, if_true, List.mem_append]
    right
    rw [List.mem_flatten]
    refine ⟨["operation " ++ toString (i + 1) ++ " missing 'source'"], ?_, by simp⟩
    rw [List.mem_map]
    refine ⟨(i, op), hmem, ?_⟩
    have hsp : (" " : String) ++ "missing 'source'" = " missing 'source'" := rfl
    simp [validate_operation, hs, String.append_assoc, hsp]
  · decide

/-- C6 witness: a blank job name is reported. -/
theorem validate_jobs_spec_witness :
    "There is a blank job name." ∈ validate_jobs [("", PyVal.dict [])] :=
  validate_jobs_spec.1 [("", PyVal.dict [])] (PyVal.dict []) (by simp)
